import Mathlib

/-!
Shallow embedding of the tiling / reassembly / random-crop / cross-validation
utilities of `src/utils/dataset_utils.py` (repository raw2logit), together with
proofs about them.

Numpy / torch arrays are modelled as a (row-major) flat data function paired
with a shape list; `arr.reshape(...)` on a C-contiguous array is then just a
change of the shape field, and `a[i0, i1, ...]` is `data (encodeIdx shape
[i0, i1, ...])`.
-/

namespace Raw2Logit

/-- A dense multi-dimensional array: a shape together with the row-major
flattened contents.  Reads outside the logical extent return junk values
(the data function is total); all theorems below index inside bounds. -/
structure NdArray (α : Type) where
  shape : List Nat
  data : Nat → α

/-- Number of elements described by a shape (product of the dimensions). -/
def listProd (l : List Nat) : Nat := l.foldr (fun a b => a * b) 1

@[simp] theorem listProd_nil : listProd [] = 1 := rfl

@[simp] theorem listProd_cons (d : Nat) (l : List Nat) :
    listProd (d :: l) = d * listProd l := rfl

/-- Row-major flattening of a multi-index against a shape. -/
def encodeIdx : List Nat → List Nat → Nat
  | _ :: ds, i :: is => i * listProd ds + encodeIdx ds is
  | _, _ => 0

@[simp] theorem encodeIdx_nil_left (is : List Nat) : encodeIdx [] is = 0 := by
  cases is <;> rfl

@[simp] theorem encodeIdx_cons (d : Nat) (ds : List Nat) (i : Nat) (is : List Nat) :
    encodeIdx (d :: ds) (i :: is) = i * listProd ds + encodeIdx ds is := rfl

/-- Row-major un-flattening of a flat offset against a shape. -/
def decodeIdx : List Nat → Nat → List Nat
  | [], _ => []
  | _ :: ds, t => t / listProd ds :: decodeIdx ds (t % listProd ds)

@[simp] theorem decodeIdx_nil (t : Nat) : decodeIdx [] t = [] := rfl

@[simp] theorem decodeIdx_cons (d : Nat) (ds : List Nat) (t : Nat) :
    decodeIdx (d :: ds) t = t / listProd ds :: decodeIdx ds (t % listProd ds) := rfl

/-- A multi-index is in bounds for a shape. -/
def InBounds (is ds : List Nat) : Prop := List.Forall₂ (· < ·) is ds

theorem encodeIdx_lt : ∀ {ds is : List Nat}, InBounds is ds →
    encodeIdx ds is < listProd ds := by
  intro ds is h
  induction h with
  | nil => simp
  | @cons i d is ds hid _ ih =>
      simp only [encodeIdx_cons, listProd_cons]
      calc i * listProd ds + encodeIdx ds is
          < i * listProd ds + listProd ds := by omega
        _ = (i + 1) * listProd ds := by ring
        _ ≤ d * listProd ds := Nat.mul_le_mul_right _ (by omega)

theorem decodeIdx_encodeIdx : ∀ {ds is : List Nat}, InBounds is ds →
    decodeIdx ds (encodeIdx ds is) = is := by
  intro ds is h
  induction h with
  | nil => simp
  | @cons i d is ds _ htl ih =>
      have hP : 0 < listProd ds := by
        have := encodeIdx_lt htl
        omega
      have he : encodeIdx ds is < listProd ds := encodeIdx_lt htl
      simp only [encodeIdx_cons, decodeIdx_cons]
      have h1 : (i * listProd ds + encodeIdx ds is) / listProd ds = i := by
        rw [Nat.add_comm, Nat.add_mul_div_right _ _ hP, Nat.div_eq_of_lt he, Nat.zero_add]
      have h2 : (i * listProd ds + encodeIdx ds is) % listProd ds = encodeIdx ds is := by
        rw [Nat.add_comm, Nat.add_mul_mod_self_right, Nat.mod_eq_of_lt he]
      rw [h1, h2, ih]

theorem listProd_append (l1 l2 : List Nat) :
    listProd (l1 ++ l2) = listProd l1 * listProd l2 := by
  induction l1 with
  | nil => simp
  | cons a l ih => simp [ih]; ring

/-- Modelled from the spec: the window count per axis of skimage's
`view_as_windows`, whose source is not part of this repository.  Following
the spec — "the number of produced blocks equals floor((H-h)/sh + 1) *
floor((W-w)/sw + 1)" and "if window size exceeds source dimensions along an
axis, zero blocks are produced along that axis" — a window larger than the
dimension yields zero placements. -/
def numWin (dim win step : Nat) : Nat :=
  if win ≤ dim then (dim - win) / step + 1 else 0

/-- Three-way zip of natural-number lists (truncating at the shortest). -/
def natZip3 (f : Nat → Nat → Nat → Nat) : List Nat → List Nat → List Nat → List Nat
  | a :: as, b :: bs, c :: cs => f a b c :: natZip3 f as bs cs
  | _, _, _ => []

@[simp] theorem natZip3_cons (f : Nat → Nat → Nat → Nat) (a b c : Nat)
    (as bs cs : List Nat) :
    natZip3 f (a :: as) (b :: bs) (c :: cs) = f a b c :: natZip3 f as bs cs := rfl

@[simp] theorem natZip3_nil (f : Nat → Nat → Nat → Nat) (bs cs : List Nat) :
    natZip3 f [] bs cs = [] := by cases bs <;> cases cs <;> rfl

/-- Modelled from the spec: skimage's `view_as_windows` (not in `src/`).
The output array stacks, in raster-scan order over the window positions,
the window contents themselves: its shape is the per-axis window counts
followed by the window shape, and the entry at window position `ws` and
in-window offset `rs` is the source entry at `ws * step + rs` (per axis). -/
def view_as_windows {α : Type} (a : NdArray α) (window step : List Nat) : NdArray α :=
  let wins := natZip3 numWin a.shape window step
  { shape := wins ++ window
    data := fun t =>
      let cs := decodeIdx (wins ++ window) t
      a.data (encodeIdx a.shape
        (natZip3 (fun w s r => w * s + r) (cs.take wins.length) step (cs.drop wins.length))) }

/-- Numpy's `arr.reshape((-1, *tail))` on a C-contiguous array: the flat
data is unchanged and the leading dimension is inferred from the total
element count. -/
def reshapeRest {α : Type} (a : NdArray α) (tail : List Nat) : NdArray α :=
  { shape := listProd a.shape / listProd tail :: tail, data := a.data }

theorem numWin_eq_zero {dim win : Nat} (h : dim < win) (step : Nat) :
    numWin dim win step = 0 := by
  simp [numWin]
  omega

theorem reshapeRest_zero {α : Type} (v : NdArray α) (tail : List Nat)
    (hz : listProd v.shape = 0) : (reshapeRest v tail).shape = 0 :: tail := by
  simp [reshapeRest, hz]

/-- A Python value passed as the `imgs` argument of `split_img`: a numpy
array or anything else (the function checks `type(imgs) != type(np.array(1))`). -/
inductive PyObj (α : Type) where
  | nd : NdArray α → PyObj α
  | other : PyObj α

/-- Outcome of a `split_img` call, distinguishing the three ways the Python
function can terminate: a returned array; `return print(msg)` (a printed
diagnostic, the function returning `None` without raising); `None` returned
silently through the end of the function; or a propagated exception. -/
inductive SplitResult (α : Type) where
  | ok : NdArray α → SplitResult α
  | printedNone : String → SplitResult α
  | noneSilent : SplitResult α
  | raised : String → SplitResult α
deriving Inhabited

/-- `split_img` of `src/utils/dataset_utils.py`.  The `ROIs` and `step`
tuples are modelled as lists of arbitrary length so that the length checks
(`len(ROIs) > 2` etc.) and the `ROIs[1]` / `step[1]` index accesses inside
the rank-dispatch branches are faithful; a tuple access out of range is a
Python `IndexError`, modelled as `SplitResult.raised`. -/
def split_img {α : Type} (imgs : PyObj α) (ROIs step : List Nat) : SplitResult α :=
  if 2 < ROIs.length then SplitResult.printedNone "ROIs is a 2 element list"
  else if 2 < step.length then SplitResult.printedNone "step is a 2 element list"
  else
    match imgs with
    | PyObj.other => SplitResult.printedNone "imgs should be a ndarray"
    | PyObj.nd a =>
      if a.shape.length = 2 then
        match ROIs, step with
        | [r0, r1], [s0, s1] =>
            SplitResult.ok (reshapeRest (view_as_windows a [r0, r1] [s0, s1]) [r0, r1])
        | _, _ => SplitResult.raised "IndexError"
      else if a.shape.length = 3 then
        match ROIs, step with
        | [r0, r1], [s0, s1] =>
            let channels := a.shape.getLastD 0
            if channels ≤ 3 then
              SplitResult.ok (reshapeRest
                (view_as_windows a [r0, r1, channels] [s0, s1, channels]) [r0, r1, channels])
            else
              SplitResult.ok (reshapeRest
                (view_as_windows a [1, r0, r1] [1, s0, s1]) [r0, r1])
        | _, _ => SplitResult.raised "IndexError"
      else if a.shape.length = 4 then
        match ROIs, step with
        | [r0, r1], [s0, s1] =>
            let channels := a.shape.getLastD 0
            SplitResult.ok (reshapeRest
              (view_as_windows a [1, r0, r1, channels] [1, s0, s1, channels]) [r0, r1, channels])
        | _, _ => SplitResult.raised "IndexError"
      else SplitResult.noneSilent

/-- Numpy / torch indexing along the first axis: `a[i]` has the tail of the
shape, and its flat data starts at offset `i * prod(tail)`. -/
def index0 {α : Type} (a : NdArray α) (i : Nat) : NdArray α :=
  { shape := a.shape.tail, data := fun t => a.data (i * listProd a.shape.tail + t) }

/-- `torch.cat((a, b), axis=2)` for rank-3 arrays `(C, H, W)`: concatenation
along the width axis.  Only used on rank-3 operands; other ranks return the
left operand unchanged. -/
def cat_axis2 {α : Type} (a b : NdArray α) : NdArray α :=
  match a.shape, b.shape with
  | [c, h, w1], [_c', h', w2] =>
      { shape := [c, h, w1 + w2]
        data := fun t =>
          let x := t % (w1 + w2)
          let y := t / (w1 + w2) % h
          let ch := t / (w1 + w2) / h
          if x < w1 then a.data ((ch * h + y) * w1 + x)
          else b.data ((ch * h' + y) * w2 + (x - w1)) }
  | _, _ => a

/-- `torch.cat((a, b), axis=1)` for rank-3 arrays `(C, H, W)`: concatenation
along the height axis.  Only used on rank-3 operands; other ranks return the
left operand unchanged. -/
def cat_axis1 {α : Type} (a b : NdArray α) : NdArray α :=
  match a.shape, b.shape with
  | [c, h1, w], [_c', h2, w'] =>
      { shape := [c, h1 + h2, w]
        data := fun t =>
          let x := t % w
          let y := t / w % (h1 + h2)
          let ch := t / w / (h1 + h2)
          if y < h1 then a.data ((ch * h1 + y) * w + x)
          else b.data ((ch * h2 + (y - h1)) * w' + x) }
  | _, _ => a

/-- Whether an array value is a torch tensor or a numpy ndarray.  `split_img`
returns numpy arrays; `torch.cat` raises `TypeError` when handed numpy
arrays instead of tensors, so `join_blocks` must know which it was given. -/
inductive Backend where
  | numpy : Backend
  | tensor : Backend
deriving DecidableEq

/-- `join_blocks` of `src/utils/dataset_utils.py`.  The shape unpack
`n_blocks, channels, ROI_height, ROI_width = splitted.shape` raises
`ValueError` unless the input has rank 4.  `splitted[r * columns + c]`
raises `IndexError` when the index is out of range, as does `final_img[0]`
when `rows = 0` (both modelled by upfront guards approximating the in-loop
raise points).  When `columns > 1` the row loop calls
`torch.cat((stackblocks, splitted[r * columns + c]), axis=2)`, which raises
`TypeError` if `splitted` is a numpy array rather than a tensor (tracked by
`backend`).  Each assembled row is stored into
`final_img = torch.empty(rows, channels, ROI_height, ROI_width * columns)`,
whose default dtype is float32, so every element of the result passes
through the buffer's value coercion, modelled by the explicit `float32`
parameter.  On the non-error path the row loop concatenates blocks
left-to-right along the width axis and the final loop concatenates the rows
top-to-bottom along the height axis. -/
def join_blocks {α : Type} (float32 : α → α) (backend : Backend)
    (splitted : NdArray α) (final_shape : Nat × Nat) :
    Except String (NdArray α) :=
  match splitted.shape with
  | [n_blocks, _channels, ROI_height, ROI_width] =>
      let rows := final_shape.1 / ROI_height
      let columns := final_shape.2 / ROI_width
      if rows * columns ≤ n_blocks then
        if rows = 0 then Except.error "IndexError"
        else if backend = Backend.numpy ∧ 1 < columns then
          Except.error
            "TypeError: expected Tensor as element 1 in argument 0, but got numpy.ndarray"
        else
          let stackblocks := fun r => (List.range' 1 (columns - 1)).foldl
            (fun acc c => cat_axis2 acc (index0 splitted (r * columns + c)))
            (index0 splitted (r * columns))
          let joined := (List.range' 1 (rows - 1)).foldl
            (fun acc i => cat_axis1 acc (stackblocks i)) (stackblocks 0)
          Except.ok { shape := joined.shape, data := fun t => float32 (joined.data t) }
      else Except.error "IndexError"
  | _ => Except.error "ValueError: not enough values to unpack"

/-- Python's `int()` applied to a (rational-valued) float: truncation toward
zero. -/
def py_int (q : ℚ) : ℤ := if 0 ≤ q then ⌊q⌋ else -⌊-q⌋

/-- The offset computation of `random_ROI`:
`int(random.random() * (dim - (crop + 1)))` for one axis, where `r` is the
value returned by `random.random()`. -/
def roi_offset (r : ℚ) (dim crop : Nat) : ℤ :=
  py_int (r * ((dim : ℚ) - ((crop : ℚ) + 1)))

/-- The x offset drawn for batch element `i` of `random_ROI`: `random.random()`
is modelled as a stream `rand` of draws, of which iteration `i` of the loop
consumes the calls numbered `2*i` (for `x_size`) and `2*i + 1` (for `y_size`). -/
def roi_xoff (rand : Nat → ℚ) (height ROIs0 i : Nat) : ℤ :=
  roi_offset (rand (2 * i)) height ROIs0

/-- The y offset drawn for batch element `i` of `random_ROI`. -/
def roi_yoff (rand : Nat → ℚ) (width ROIs1 i : Nat) : ℤ :=
  roi_offset (rand (2 * i + 1)) width ROIs1

/-- The cropped batch built by the loop of `random_ROI`:
`X_cut[i] = A[i, x_size : x_size + ROIs[0], y_size : y_size + ROIs[1], :]`
elementwise, where the offsets are those drawn for batch element `i`.  `batch`,
`channels`, `height`, `width` come from unpacking `X.shape` (the Python code
unpacks `batch, channels, height, width = X.shape` and then slices axes 1 and 2
spatially, so `height`/`width` are whatever sits at positions 2 and 3 of the
shape).  A Python slice with a negative start wraps around; the model instead
clamps the offset at 0 (`Int.toNat`), which agrees with Python whenever the
crop fits, which is what every theorem below assumes. -/
def roi_cut {α : Type} (rand : Nat → ℚ) (A : NdArray α)
    (batch channels height width : Nat) (ROIs : Nat × Nat) : NdArray α :=
  { shape := [batch, ROIs.1, ROIs.2, channels]
    data := fun t =>
      match decodeIdx [batch, ROIs.1, ROIs.2, channels] t with
      | [i, a, b, ch] =>
          A.data (encodeIdx A.shape
            [i, (roi_xoff rand height ROIs.1 i).toNat + a,
                (roi_yoff rand width ROIs.2 i).toNat + b, ch])
      | _ => A.data t }

/-- `random_ROI` of `src/utils/dataset_utils.py`.  `random.random()` is
modelled as the stream `rand` of its successive return values.  The shape
unpack `batch, channels, height, width = X.shape` raises unless `X` has rank
4; both crops are extracted with the offsets drawn once per batch element
(the same pair for `X` and `Y`). -/
def random_ROI {α : Type} (rand : Nat → ℚ) (X Y : NdArray α) (ROIs : Nat × Nat) :
    Except String (NdArray α × NdArray α) :=
  match X.shape with
  | [batch, channels, height, width] =>
      Except.ok
        (roi_cut rand X batch channels height width ROIs,
         roi_cut rand Y batch channels height width ROIs)
  | _ => Except.error "ValueError: not enough values to unpack"

/-- The dataset object consumed by `k_fold`: a task string, a length, and the
optional `labels` / `masks` attributes probed by `hasattr`. -/
structure Dataset (β : Type) where
  task : String
  size : Nat
  labels : Option (List β)
  masks : Option (List β)

/-- The `y` chosen by the `hasattr(dataset, 'labels') / hasattr(dataset,
'masks')` dispatch at the top of `k_fold` (labels win when both exist). -/
def selectedY {β : Type} (dataset : Dataset β) : Option (List β) :=
  match dataset.labels with
  | some l => some l
  | none => dataset.masks

/-- `k_fold` of `src/utils/dataset_utils.py`.  The `hasattr` dispatch at the
top binds `x`/`y` without raising.  The classification branch then executes
`sss = StratifiedShuffleSplit(n_splits=..., train_size=..., random_state=seed)`
(line 56); `StratifiedShuffleSplit` is used but never imported anywhere in
the file, so this raises `NameError` on every classification-path call
before any fold is produced.  The segmentation branch draws
`np.random.permutation(len(dataset))` afresh per fold from the global RNG,
modelled as the stream `np_permutation` of its successive return values
(indexed by fold number), and splits it at
`int(len(dataset) * train_size)`, which truncates toward zero — the floor
for the nonnegative operands assumed below.  A task that is neither
`"classification"` nor `"segmentation"` matches no branch and the initial
empty list is returned.  The `shuffle` argument stands for the seeded RNG
the stratified path would consume; the `NameError` strikes before it could
be used. -/
def k_fold {β : Type} [DecidableEq β] (np_permutation : Nat → List Nat)
    (shuffle : Nat → Nat → List Nat → List Nat) (dataset : Dataset β)
    (n_splits : Nat) (seed : Nat) (train_size : ℚ) :
    Except String (List (List Nat × List Nat)) :=
  if dataset.task = "classification" then
    Except.error "NameError: name StratifiedShuffleSplit is not defined"
  else if dataset.task = "segmentation" then
    Except.ok ((List.range n_splits).map (fun n =>
      let split_idx := (⌊(dataset.size : ℚ) * train_size⌋).toNat
      ((np_permutation n).take split_idx, (np_permutation n).drop split_idx)))
  else Except.ok []

/-! ### Arithmetic helpers -/

theorem mul_add_div_of_lt {d r : Nat} (h : r < d) (p : Nat) : (p * d + r) / d = p := by
  rw [Nat.add_comm, Nat.add_mul_div_right _ _ (by omega), Nat.div_eq_of_lt h, Nat.zero_add]

theorem mul_add_mod_of_lt {d r : Nat} (h : r < d) (p : Nat) : (p * d + r) % d = r := by
  rw [Nat.add_comm, Nat.add_mul_mod_self_right, Nat.mod_eq_of_lt h]

theorem encodeIdx3_eq (d1 d2 d3 i1 i2 i3 : Nat) :
    encodeIdx [d1, d2, d3] [i1, i2, i3] = (i1 * d2 + i2) * d3 + i3 := by
  simp [encodeIdx, listProd]; ring

theorem encodeIdx4_eq (d1 d2 d3 d4 i1 i2 i3 i4 : Nat) :
    encodeIdx [d1, d2, d3, d4] [i1, i2, i3, i4] = ((i1 * d2 + i2) * d3 + i3) * d4 + i4 := by
  simp [encodeIdx, listProd]; ring

theorem encodeIdx_group2 (n1 n2 : Nat) (ds : List Nat) (b : Nat) (is : List Nat) :
    encodeIdx (n1 * n2 :: ds) (b :: is) =
      encodeIdx (n1 :: n2 :: ds) (b / n2 :: b % n2 :: is) := by
  simp only [encodeIdx_cons, listProd_cons]
  have h : b / n2 * (n2 * listProd ds) + (b % n2 * listProd ds + encodeIdx ds is)
      = (b / n2 * n2 + b % n2) * listProd ds + encodeIdx ds is := by ring
  rw [h, Nat.div_add_mod']

/-! ### Characterization of `split_img` on rank-2 input -/

theorem view_as_windows_rank2 {α : Type} (a : NdArray α) (H W h w sh sw i j r c : Nat)
    (ha : a.shape = [H, W]) (hi : i < numWin H h sh) (hj : j < numWin W w sw)
    (hr : r < h) (hc : c < w) :
    (view_as_windows a [h, w] [sh, sw]).data
        (encodeIdx [numWin H h sh, numWin W w sw, h, w] [i, j, r, c]) =
      a.data (encodeIdx [H, W] [i * sh + r, j * sw + c]) := by
  have hb : InBounds [i, j, r, c] [numWin H h sh, numWin W w sw, h, w] :=
    .cons hi (.cons hj (.cons hr (.cons hc .nil)))
  simp only [view_as_windows, ha, natZip3_cons, natZip3_nil, List.cons_append,
    List.nil_append]
  rw [decodeIdx_encodeIdx hb]
  rfl

theorem split_img_rank2_spec {α : Type} (a : NdArray α) (H W h w sh sw : Nat)
    (ha : a.shape = [H, W]) (hh : 0 < h) (hw : 0 < w) :
    ∃ out, split_img (PyObj.nd a) [h, w] [sh, sw] = SplitResult.ok out ∧
      out.shape = [numWin H h sh * numWin W w sw, h, w] ∧
      ∀ b r c, b < numWin H h sh * numWin W w sw → r < h → c < w →
        out.data (encodeIdx [numWin H h sh * numWin W w sw, h, w] [b, r, c]) =
          a.data (encodeIdx [H, W]
            [b / numWin W w sw * sh + r, b % numWin W w sw * sw + c]) := by
  refine ⟨reshapeRest (view_as_windows a [h, w] [sh, sw]) [h, w], ?_, ?_, ?_⟩
  · simp [split_img, ha]
  · simp only [reshapeRest, view_as_windows, ha, natZip3_cons, natZip3_nil,
      List.cons_append, List.nil_append]
    have hP : listProd [numWin H h sh, numWin W w sw, h, w]
        = numWin H h sh * numWin W w sw * listProd [h, w] := by
      simp [listProd]; ring
    have hpos : 0 < listProd [h, w] := by
      simp [listProd]
      exact ⟨hh, hw⟩
    rw [hP, Nat.mul_div_cancel _ hpos]
  · intro b r c hb hr hc
    have hnW : 0 < numWin W w sw := by
      rcases Nat.eq_zero_or_pos (numWin W w sw) with h0 | h1
      · rw [h0, Nat.mul_zero] at hb; omega
      · exact h1
    have hgroup := encodeIdx_group2 (numWin H h sh) (numWin W w sw) [h, w] b [r, c]
    show (view_as_windows a [h, w] [sh, sw]).data _ = _
    rw [hgroup]
    exact view_as_windows_rank2 a H W h w sh sw _ _ r c ha
      (Nat.div_lt_iff_lt_mul hnW |>.mpr (by omega))
      (Nat.mod_lt _ hnW) hr hc

/-! ### Concrete test data -/

/-- A concrete rational-valued image whose flat entry at offset `t` is `t`. -/
def sampleImg (shape : List Nat) : NdArray ℚ := ⟨shape, fun t => (t : ℚ)⟩

/-! ### Claims C1, C2, C7, C8 — tiling and reassembly -/

/-- Claim C2: for every 2-D input array of shape (H,W), block size (h,w) with
0 < h ≤ H and 0 < w ≤ W, and positive step (sh,sw), `split_img` produces
exactly floor((H-h)/sh + 1) * floor((W-w)/sw + 1) blocks, each of shape
(h,w), in raster-scan order: block b is the window whose top-left corner is
at row (b / nx) * sh and column (b % nx) * sw, where nx is the per-row window
count. -/
theorem C2_block_count_raster_order {α : Type} (a : NdArray α) (H W h w sh sw : Nat)
    (ha : a.shape = [H, W]) (hh : 0 < h) (hw : 0 < w) (hhH : h ≤ H) (hwW : w ≤ W)
    (hsh : 0 < sh) (hsw : 0 < sw) :
    ∃ out, split_img (PyObj.nd a) [h, w] [sh, sw] = SplitResult.ok out ∧
      out.shape = [((H - h) / sh + 1) * ((W - w) / sw + 1), h, w] ∧
      ∀ b r c, b < ((H - h) / sh + 1) * ((W - w) / sw + 1) → r < h → c < w →
        out.data (encodeIdx [((H - h) / sh + 1) * ((W - w) / sw + 1), h, w] [b, r, c]) =
          a.data (encodeIdx [H, W]
            [b / ((W - w) / sw + 1) * sh + r, b % ((W - w) / sw + 1) * sw + c]) := by
  have hnH : numWin H h sh = (H - h) / sh + 1 := by simp [numWin, hhH]
  have hnW : numWin W w sw = (W - w) / sw + 1 := by simp [numWin, hwW]
  obtain ⟨out, h1, h2, h3⟩ := split_img_rank2_spec a H W h w sh sw ha hh hw
  rw [hnH, hnW] at h2 h3
  exact ⟨out, h1, h2, h3⟩

/-- Witness for C2: a 3×3 image, 2×2 blocks, step (1,1): 4 blocks of shape
(2,2). -/
theorem C2_block_count_raster_order_witness :
    ((sampleImg [3, 3]).shape = [3, 3] ∧ (0 : Nat) < 2 ∧ (2 : Nat) ≤ 3 ∧ (0 : Nat) < 1) ∧
    ∃ out, split_img (PyObj.nd (sampleImg [3, 3])) [2, 2] [1, 1] = SplitResult.ok out ∧
      out.shape = [4, 2, 2] ∧
      ∀ b r c, b < 4 → r < 2 → c < 2 →
        out.data (encodeIdx [4, 2, 2] [b, r, c]) =
          (sampleImg [3, 3]).data (encodeIdx [3, 3] [b / 2 * 1 + r, b % 2 * 1 + c]) :=
  ⟨⟨rfl, by decide, by decide, by decide⟩,
   C2_block_count_raster_order (sampleImg [3, 3]) 3 3 2 2 1 1 rfl (by decide) (by decide)
     (by decide) (by decide) (by decide) (by decide)⟩

/-- Claim C1 (code bug): the round-trip
`join_blocks(split_img(image, block_size, step=block_size), image.shape)`
is impossible for the program, evaluated here at the spec's own concrete
scenario (a (6,6) single-channel image, (2,2) blocks, step (2,2)).
`split_img` returns a rank-3 (9,2,2) numpy array; `join_blocks` starts by
unpacking the input shape into four values, which raises `ValueError` on a
rank-3 input, for every backend and every buffer coercion.  Inserting the
channel axis (reshaping the blocks to (9,1,2,2)) does not repair the
composition either: the blocks are still numpy arrays, and the row loop's
`torch.cat` raises `TypeError` on numpy operands whenever the block grid
has more than one column, as it does here (columns = 3). -/
theorem C1_direct_composition_fails :
    ∃ S, split_img (PyObj.nd (sampleImg [6, 6])) [2, 2] [2, 2] = SplitResult.ok S ∧
      S.shape = [9, 2, 2] ∧
      (∀ (float32 : ℚ → ℚ) (backend : Backend),
        join_blocks float32 backend S (6, 6)
          = Except.error "ValueError: not enough values to unpack") ∧
      (∀ float32 : ℚ → ℚ,
        join_blocks float32 Backend.numpy (reshapeRest S [1, 2, 2]) (6, 6)
          = Except.error
            "TypeError: expected Tensor as element 1 in argument 0, but got numpy.ndarray") :=
  ⟨_, rfl, rfl, fun _ _ => rfl, fun _ => rfl⟩

/-- Claim C7 counterexample: the claim says every size tuple whose length is
not 2 is reported with a diagnostic and the operation aborts without raising;
but the code only checks `len(ROIs) > 2`, so a length-1 size tuple slips past
the check and `ROIs[1]` raises `IndexError` inside the rank-2 branch — no
diagnostic is printed. -/
theorem C7_short_tuple_raises :
    split_img (PyObj.nd (sampleImg [3, 3])) [2] [1, 1] = SplitResult.raised "IndexError" ∧
    ¬ ∃ msg, split_img (PyObj.nd (sampleImg [3, 3])) [2] [1, 1]
        = SplitResult.printedNone msg := by
  refine ⟨rfl, ?_⟩
  rintro ⟨msg, h⟩
  rw [show split_img (PyObj.nd (sampleImg [3, 3])) [2] [1, 1]
      = SplitResult.raised "IndexError" from rfl] at h
  exact SplitResult.noConfusion h

/-- Claim C7 (amended): `split_img` reports a diagnostic and aborts without
raising exactly for size/step tuples of length greater than 2 (size checked
before step) and for non-array inputs; a tuple of length less than 2 passes
the length checks and instead raises `IndexError` when its missing element is
accessed inside the rank-2/3/4 dispatch branches. -/
theorem C7_validation_behaviour {α : Type} (imgs : PyObj α) (ROIs step : List Nat) :
    (2 < ROIs.length →
      split_img imgs ROIs step = SplitResult.printedNone "ROIs is a 2 element list") ∧
    (ROIs.length ≤ 2 → 2 < step.length →
      split_img imgs ROIs step = SplitResult.printedNone "step is a 2 element list") ∧
    (ROIs.length ≤ 2 → step.length ≤ 2 → imgs = PyObj.other →
      split_img imgs ROIs step = SplitResult.printedNone "imgs should be a ndarray") ∧
    (∀ a, imgs = PyObj.nd a → ROIs.length ≤ 2 → step.length ≤ 2 →
      ¬(ROIs.length = 2 ∧ step.length = 2) →
      (a.shape.length = 2 ∨ a.shape.length = 3 ∨ a.shape.length = 4) →
      split_img imgs ROIs step = SplitResult.raised "IndexError") := by
  refine ⟨?_, ?_, ?_, ?_⟩
  · intro hR
    simp [split_img, hR]
  · intro hR hs
    simp [split_img, show ¬ 2 < ROIs.length from by omega, hs]
  · intro hR hs hother
    subst hother
    simp [split_img, show ¬ 2 < ROIs.length from by omega,
      show ¬ 2 < step.length from by omega]
  · intro a hnd hR hs hne hsh
    subst hnd
    have hcase : ROIs.length < 2 ∨ step.length < 2 := by omega
    clear hne
    rcases ROIs with _ | ⟨r0, _ | ⟨r1, _ | ⟨r2, rest⟩⟩⟩ <;>
      rcases step with _ | ⟨s0, _ | ⟨s1, _ | ⟨s2, srest⟩⟩⟩ <;>
        simp only [List.length_nil, List.length_cons] at hR hs hcase <;>
          first
          | omega
          | (rcases hsh with h2 | h3 | h4 <;> simp [split_img, *])

/-- Witness for the amended C7: an oversized size tuple is reported with the
diagnostic. -/
theorem C7_validation_behaviour_witness :
    (2 < ([5, 6, 7] : List Nat).length) ∧
    split_img (PyObj.nd (sampleImg [3, 3])) [5, 6, 7] [1, 1]
      = SplitResult.printedNone "ROIs is a 2 element list" :=
  ⟨by decide,
   (C7_validation_behaviour (PyObj.nd (sampleImg [3, 3])) [5, 6, 7] [1, 1]).1 (by decide)⟩

/-- Claim C8 (spec-modelled): for every array input, of any rank `split_img`
dispatches on, whose dimension along some sliding axis is smaller than the
requested window size along that axis, `split_img` returns an empty block
sequence (an array with leading dimension 0) rather than signaling an
error.  Rank-2 images slide the window over both axes; rank-3 images with
at most 3 channels slide over the two spatial axes (the channel window
equals the channel count, so it is never oversized); rank-3 stacks with
more than 3 channels and rank-4 batches use a unit window on the leading
axis, oversized exactly for an empty stack/batch.  The window extraction is
modelled from the spec (`numWin` yields zero placements for an oversized
window); skimage's real `view_as_windows`, absent from `src/`, raises
`ValueError` here instead. -/
theorem C8_oversized_window_empty {α : Type} (a : NdArray α) (h w sh sw : Nat) :
    (∀ H W, a.shape = [H, W] → H < h ∨ W < w →
      ∃ out, split_img (PyObj.nd a) [h, w] [sh, sw] = SplitResult.ok out ∧
        out.shape = [0, h, w]) ∧
    (∀ H W C, a.shape = [H, W, C] → C ≤ 3 → H < h ∨ W < w →
      ∃ out, split_img (PyObj.nd a) [h, w] [sh, sw] = SplitResult.ok out ∧
        out.shape = [0, h, w, C]) ∧
    (∀ N H W, a.shape = [N, H, W] → 3 < W → H < h ∨ W < w ∨ N = 0 →
      ∃ out, split_img (PyObj.nd a) [h, w] [sh, sw] = SplitResult.ok out ∧
        out.shape = [0, h, w]) ∧
    (∀ B H W C, a.shape = [B, H, W, C] → H < h ∨ W < w ∨ B = 0 →
      ∃ out, split_img (PyObj.nd a) [h, w] [sh, sw] = SplitResult.ok out ∧
        out.shape = [0, h, w, C]) := by
  refine ⟨?_, ?_, ?_, ?_⟩
  · intro H W ha hdeg
    refine ⟨reshapeRest (view_as_windows a [h, w] [sh, sw]) [h, w],
      by simp [split_img, ha], ?_⟩
    apply reshapeRest_zero
    simp only [view_as_windows, ha, natZip3_cons, natZip3_nil, listProd_append]
    rcases hdeg with hd | hd <;> simp [numWin_eq_zero hd]
  · intro H W C ha hC hdeg
    refine ⟨reshapeRest (view_as_windows a [h, w, C] [sh, sw, C]) [h, w, C],
      by simp [split_img, ha, hC], ?_⟩
    apply reshapeRest_zero
    simp only [view_as_windows, ha, natZip3_cons, natZip3_nil, listProd_append]
    rcases hdeg with hd | hd <;> simp [numWin_eq_zero hd]
  · intro N H W ha hW hdeg
    refine ⟨reshapeRest (view_as_windows a [1, h, w] [1, sh, sw]) [h, w],
      by simp [split_img, ha, show ¬ W ≤ 3 from by omega], ?_⟩
    apply reshapeRest_zero
    simp only [view_as_windows, ha, natZip3_cons, natZip3_nil, listProd_append]
    rcases hdeg with hd | hd | hd
    · simp [numWin_eq_zero hd]
    · simp [numWin_eq_zero hd]
    · simp [numWin_eq_zero (show N < 1 from by omega)]
  · intro B H W C ha hdeg
    refine ⟨reshapeRest (view_as_windows a [1, h, w, C] [1, sh, sw, C]) [h, w, C],
      by simp [split_img, ha], ?_⟩
    apply reshapeRest_zero
    simp only [view_as_windows, ha, natZip3_cons, natZip3_nil, listProd_append]
    rcases hdeg with hd | hd | hd
    · simp [numWin_eq_zero hd]
    · simp [numWin_eq_zero hd]
    · simp [numWin_eq_zero (show B < 1 from by omega)]

/-- Witness for C8: an 8×2 window on a 6×6 single-channel image and on a
1×6×6×3 batch both produce zero blocks. -/
theorem C8_oversized_window_empty_witness :
    ((sampleImg [6, 6]).shape = [6, 6] ∧ ((6 : Nat) < 8 ∨ (6 : Nat) < 2) ∧
      (sampleImg [1, 6, 6, 3]).shape = [1, 6, 6, 3] ∧
      ((6 : Nat) < 8 ∨ (6 : Nat) < 2 ∨ (1 : Nat) = 0)) ∧
    (∃ out, split_img (PyObj.nd (sampleImg [6, 6])) [8, 2] [1, 1] = SplitResult.ok out ∧
      out.shape = [0, 8, 2]) ∧
    (∃ out, split_img (PyObj.nd (sampleImg [1, 6, 6, 3])) [8, 2] [1, 1]
        = SplitResult.ok out ∧ out.shape = [0, 8, 2, 3]) :=
  ⟨⟨rfl, by decide, rfl, by decide⟩,
   (C8_oversized_window_empty (sampleImg [6, 6]) 8 2 1 1).1 6 6 rfl (by decide),
   (C8_oversized_window_empty (sampleImg [1, 6, 6, 3]) 8 2 1 1).2.2.2 1 6 6 3 rfl (by decide)⟩

/-! ### Claims C5, C6 — random_ROI -/

/-- Claim C5: for every `random_ROI` call on a rank-4 input, the crop taken
from `X` and the crop taken from `Y` at batch index `i` are extracted at the
identical top-left offset pair, and the offsets of batch element `i` are
functions of the RNG draws numbered 2i and 2i+1 alone, which are distinct
from the draws of every other batch element (fresh draws per element, no
shared offset across the batch). -/
theorem C5_paired_crops_share_offsets {α : Type} (rand : Nat → ℚ) (X Y : NdArray α)
    (ROIs : Nat × Nat) (batch channels height width : Nat)
    (hX : X.shape = [batch, channels, height, width]) :
    ∃ Xc Yc, random_ROI rand X Y ROIs = Except.ok (Xc, Yc) ∧
      (∀ i a b ch, i < batch → a < ROIs.1 → b < ROIs.2 → ch < channels →
        ∃ xs ys : Nat,
          Xc.data (encodeIdx [batch, ROIs.1, ROIs.2, channels] [i, a, b, ch])
            = X.data (encodeIdx X.shape [i, xs + a, ys + b, ch]) ∧
          Yc.data (encodeIdx [batch, ROIs.1, ROIs.2, channels] [i, a, b, ch])
            = Y.data (encodeIdx Y.shape [i, xs + a, ys + b, ch]) ∧
          xs = (roi_xoff rand height ROIs.1 i).toNat ∧
          ys = (roi_yoff rand width ROIs.2 i).toNat) ∧
      (∀ i, ∀ rand' : Nat → ℚ, rand' (2 * i) = rand (2 * i) →
        rand' (2 * i + 1) = rand (2 * i + 1) →
        roi_xoff rand' height ROIs.1 i = roi_xoff rand height ROIs.1 i ∧
        roi_yoff rand' width ROIs.2 i = roi_yoff rand width ROIs.2 i) ∧
      (∀ i j, i ≠ j → 2 * i ≠ 2 * j ∧ 2 * i ≠ 2 * j + 1 ∧ 2 * i + 1 ≠ 2 * j + 1) := by
  refine ⟨roi_cut rand X batch channels height width ROIs,
    roi_cut rand Y batch channels height width ROIs, by simp [random_ROI, hX], ?_, ?_, ?_⟩
  · intro i a b ch hi ha hb hch
    have hdec : decodeIdx [batch, ROIs.1, ROIs.2, channels]
        (encodeIdx [batch, ROIs.1, ROIs.2, channels] [i, a, b, ch]) = [i, a, b, ch] :=
      decodeIdx_encodeIdx (.cons hi (.cons ha (.cons hb (.cons hch .nil))))
    refine ⟨(roi_xoff rand height ROIs.1 i).toNat, (roi_yoff rand width ROIs.2 i).toNat,
      ?_, ?_, rfl, rfl⟩ <;>
      simp only [roi_cut, hdec]
  · intro i rand' h1 h2
    constructor
    · rw [roi_xoff, roi_xoff, h1]
    · rw [roi_yoff, roi_yoff, h2]
  · intro i j hij
    omega

/-- Witness for C5: a batch of two 4×4 single-channel image pairs with 2×2
crops and the constant-zero RNG stream. -/
theorem C5_paired_crops_share_offsets_witness :
    (sampleImg [2, 1, 4, 4]).shape = [2, 1, 4, 4] ∧
    ∃ Xc Yc, random_ROI (fun _ => 0) (sampleImg [2, 1, 4, 4]) (sampleImg [2, 1, 4, 4]) (2, 2)
        = Except.ok (Xc, Yc) ∧
      ∀ i a b ch, i < 2 → a < (2, 2).1 → b < (2, 2).2 → ch < 1 →
        ∃ xs ys : Nat,
          Xc.data (encodeIdx [2, (2, 2).1, (2, 2).2, 1] [i, a, b, ch])
            = (sampleImg [2, 1, 4, 4]).data
                (encodeIdx (sampleImg [2, 1, 4, 4]).shape [i, xs + a, ys + b, ch]) ∧
          Yc.data (encodeIdx [2, (2, 2).1, (2, 2).2, 1] [i, a, b, ch])
            = (sampleImg [2, 1, 4, 4]).data
                (encodeIdx (sampleImg [2, 1, 4, 4]).shape [i, xs + a, ys + b, ch]) ∧
          xs = (roi_xoff (fun _ => 0) 4 (2, 2).1 i).toNat ∧
          ys = (roi_yoff (fun _ => 0) 4 (2, 2).2 i).toNat := by
  refine ⟨rfl, ?_⟩
  obtain ⟨Xc, Yc, h1, h2, h3, h4⟩ := C5_paired_crops_share_offsets (fun _ => 0)
    (sampleImg [2, 1, 4, 4]) (sampleImg [2, 1, 4, 4]) (2, 2) 2 1 4 4 rfl
  exact ⟨Xc, Yc, h1, h2⟩

/-- Claim C6 counterexample: with source dimension 4 and crop dimension 2,
the claim puts the offsets uniformly over the full range [0, 4-2-1] = [0, 1]
(and says every fitting placement can occur); but the code computes
`int(r * (4 - (2 + 1))) = int(r) = 0` for every `r ∈ [0, 1)`, so the offset
1 can never be drawn. -/
theorem C6_offset_range_cex :
    ¬ ∃ r : ℚ, 0 ≤ r ∧ r < 1 ∧ roi_offset r 4 2 = 1 := by
  rintro ⟨r, h0, h1, he⟩
  have hval : r * (((4 : Nat) : ℚ) - (((2 : Nat) : ℚ) + 1)) = r := by push_cast; ring
  rw [roi_offset, hval, py_int, if_pos h0] at he
  have hz : ⌊r⌋ = 0 := Int.floor_eq_zero_iff.mpr (by rw [Set.mem_Ico]; exact ⟨h0, h1⟩)
  omega

/-- Claim C6 (amended): each drawn offset is `int(r * (dim - crop - 1))` for
the draw `r ∈ [0, 1)`; when `crop + 2 ≤ dim` it lies in [0, dim - crop - 2],
it equals `v` exactly when `r` lies in the equal-width interval
[v/(dim-crop-1), (v+1)/(dim-crop-1)) — uniform over [0, dim - crop - 2] for
uniform `r` — and every value of that range occurs for some draw.  The
fitting placements at offsets dim - crop - 1 and dim - crop are never
produced. -/
theorem C6_offset_distribution (dim crop : Nat) (r : ℚ) (hd : crop + 2 ≤ dim)
    (h0 : 0 ≤ r) (h1 : r < 1) :
    (0 ≤ roi_offset r dim crop ∧ roi_offset r dim crop ≤ (dim : ℤ) - crop - 2) ∧
    (∀ v : Nat, v ≤ dim - crop - 2 →
      (roi_offset r dim crop = v ↔
        (v : ℚ) / ((dim : ℚ) - ((crop : ℚ) + 1)) ≤ r ∧
          r < ((v : ℚ) + 1) / ((dim : ℚ) - ((crop : ℚ) + 1)))) ∧
    (∀ v : Nat, v ≤ dim - crop - 2 →
      ∃ r' : ℚ, 0 ≤ r' ∧ r' < 1 ∧ roi_offset r' dim crop = v) := by
  have hdq : (crop : ℚ) + 2 ≤ (dim : ℚ) := by exact_mod_cast hd
  have hk : (0 : ℚ) < (dim : ℚ) - ((crop : ℚ) + 1) := by linarith
  have hoff : ∀ s : ℚ, 0 ≤ s →
      roi_offset s dim crop = ⌊s * ((dim : ℚ) - ((crop : ℚ) + 1))⌋ := by
    intro s hs
    rw [roi_offset, py_int, if_pos (mul_nonneg hs hk.le)]
  have hvk : ∀ v : Nat, v ≤ dim - crop - 2 →
      (v : ℚ) + 1 ≤ (dim : ℚ) - ((crop : ℚ) + 1) := by
    intro v hv
    have : (v : ℚ) ≤ ((dim - crop - 2 : Nat) : ℚ) := by exact_mod_cast hv
    have hc2 : ((dim - crop - 2 : Nat) : ℚ) = (dim : ℚ) - (crop : ℚ) - 2 := by
      rw [show dim - crop - 2 = dim - (crop + 2) from by omega,
        Nat.cast_sub (by omega : crop + 2 ≤ dim)]
      push_cast
      ring
    rw [hc2] at this
    linarith
  refine ⟨⟨?_, ?_⟩, ?_, ?_⟩
  · rw [hoff r h0]
    exact Int.floor_nonneg.mpr (mul_nonneg h0 hk.le)
  · rw [hoff r h0]
    have hlt : r * ((dim : ℚ) - ((crop : ℚ) + 1)) < (dim : ℚ) - ((crop : ℚ) + 1) := by
      nlinarith
    have hfl : ⌊r * ((dim : ℚ) - ((crop : ℚ) + 1))⌋ < (dim : ℤ) - crop - 1 := by
      apply Int.floor_lt.mpr
      push_cast
      linarith
    omega
  · intro v hv
    rw [hoff r h0, Int.floor_eq_iff, div_le_iff₀ hk, lt_div_iff₀ hk]
    push_cast
    tauto
  · intro v hv
    refine ⟨(v : ℚ) / ((dim : ℚ) - ((crop : ℚ) + 1)), div_nonneg (by positivity) hk.le, ?_, ?_⟩
    · rw [div_lt_one hk]
      have := hvk v hv
      linarith
    · rw [hoff _ (div_nonneg (by positivity) hk.le),
        div_mul_cancel₀ _ (ne_of_gt hk)]
      exact Int.floor_natCast v

/-- Witness for the amended C6: dim = 5, crop = 2, r = 1/2 gives offset
int(0.5 * 2) = 1 ∈ [0, 5-2-2]. -/
theorem C6_offset_distribution_witness :
    ((2 : Nat) + 2 ≤ 5 ∧ (0 : ℚ) ≤ 1 / 2 ∧ (1 / 2 : ℚ) < 1) ∧
    (0 ≤ roi_offset (1 / 2) 5 2 ∧ roi_offset (1 / 2) 5 2 ≤ (5 : ℤ) - 2 - 2) :=
  ⟨⟨by decide, by norm_num, by norm_num⟩,
   (C6_offset_distribution 5 2 (1 / 2) (by decide) (by norm_num) (by norm_num)).1⟩

/-! ### Lemmas for the cross-validation splitter -/

theorem disjoint_nodup_card {l1 l2 : List Nat} (h1 : l1.Nodup) (h2 : l2.Nodup)
    (hd : l1.Disjoint l2) :
    (l1.toFinset ∪ l2.toFinset).card = l1.length + l2.length := by
  rw [Finset.card_union_of_disjoint (List.disjoint_toFinset_iff_disjoint.mpr hd),
    List.toFinset_card_of_nodup h1, List.toFinset_card_of_nodup h2]

theorem k_fold_classification_raises {β : Type} [DecidableEq β]
    (np_permutation : Nat → List Nat) (shuffle : Nat → Nat → List Nat → List Nat)
    (dataset : Dataset β) (n_splits seed : Nat) (ts : ℚ)
    (htask : dataset.task = "classification") :
    k_fold np_permutation shuffle dataset n_splits seed ts
      = Except.error "NameError: name StratifiedShuffleSplit is not defined" := by
  simp [k_fold, htask]

theorem k_fold_segmentation_eq {β : Type} [DecidableEq β]
    (np_permutation : Nat → List Nat) (shuffle : Nat → Nat → List Nat → List Nat)
    (dataset : Dataset β) (n_splits seed : Nat) (ts : ℚ)
    (htask : dataset.task = "segmentation") :
    k_fold np_permutation shuffle dataset n_splits seed ts
      = Except.ok ((List.range n_splits).map (fun f =>
          ((np_permutation f).take (⌊(dataset.size : ℚ) * ts⌋).toNat,
           (np_permutation f).drop (⌊(dataset.size : ℚ) * ts⌋).toNat))) := by
  simp [k_fold, htask]

theorem k_fold_other_eq {β : Type} [DecidableEq β]
    (np_permutation : Nat → List Nat) (shuffle : Nat → Nat → List Nat → List Nat)
    (dataset : Dataset β) (n_splits seed : Nat) (ts : ℚ)
    (ht1 : dataset.task ≠ "classification") (ht2 : dataset.task ≠ "segmentation") :
    k_fold np_permutation shuffle dataset n_splits seed ts = Except.ok [] := by
  simp [k_fold, ht1, ht2]

/-! ### Claims C3, C4, C9, C10 — k_fold -/

/-- Claim C3 counterexample: the claim covers every non-classification task,
but `k_fold` only has a branch for the task string `"segmentation"`; for the
non-classification task `"detection"` with `n_splits = 1` it returns the
initial empty fold list instead of one permutation-split pair per fold. -/
theorem C3_unhandled_task_cex :
    ∃ l, k_fold (fun _ => [2, 0, 1]) (fun _ _ l => l)
        (⟨"detection", 3, none, some [0, 0, 0]⟩ : Dataset Nat) 1 0 (1 / 2 : ℚ)
      = Except.ok l ∧ l.length = 0 :=
  ⟨[], rfl, rfl⟩

/-- Claim C3 (amended, spec-modelled): for every dataset whose task is
exactly `"segmentation"`, `k_fold` produces one pair per fold, each obtained
by splitting that fold's freshly drawn permutation of [0, len(dataset)) at
floor(len(dataset) * train_size): the prefix is the train side, the suffix
the validation side.  `np.random.permutation` is external code, modelled as
the per-fold oracle `np_permutation`, assumed to permute the index range
(uniformity is the library's guarantee). -/
theorem C3_segmentation_fold_structure {β : Type} [DecidableEq β]
    (np_permutation : Nat → List Nat) (shuffle : Nat → Nat → List Nat → List Nat)
    (dataset : Dataset β) (n_splits seed : Nat) (ts : ℚ)
    (htask : dataset.task = "segmentation")
    (hperm : ∀ f, (np_permutation f).Perm (List.range dataset.size)) :
    ∃ l, k_fold np_permutation shuffle dataset n_splits seed ts = Except.ok l ∧
      l.length = n_splits ∧
      ∀ f, f < n_splits →
        ∃ p : List Nat, p.Perm (List.range dataset.size) ∧
          l[f]? = some (p.take (⌊(dataset.size : ℚ) * ts⌋).toNat,
                        p.drop (⌊(dataset.size : ℚ) * ts⌋).toNat) := by
  refine ⟨_, k_fold_segmentation_eq np_permutation shuffle dataset n_splits seed ts htask,
    by simp, ?_⟩
  intro f hf
  refine ⟨np_permutation f, hperm f, ?_⟩
  rw [List.getElem?_map, List.getElem?_range hf]
  rfl

/-- Witness for the amended C3: two segmentation folds over a 3-element
dataset with the oracle permutation [2,0,1] and train fraction 2/3. -/
theorem C3_segmentation_fold_structure_witness :
    ((⟨"segmentation", 3, none, some [0, 0, 0]⟩ : Dataset Nat).task = "segmentation" ∧
      (∀ f : Nat, ([2, 0, 1] : List Nat).Perm (List.range 3))) ∧
    ∃ l, k_fold (fun _ => [2, 0, 1]) (fun _ _ l => l)
        (⟨"segmentation", 3, none, some [0, 0, 0]⟩ : Dataset Nat) 2 0 (2 / 3 : ℚ)
      = Except.ok l ∧ l.length = 2 ∧
      ∀ f, f < 2 → ∃ p : List Nat, p.Perm (List.range 3) ∧
        l[f]? = some (p.take (⌊((3 : Nat) : ℚ) * (2 / 3)⌋).toNat,
                      p.drop (⌊((3 : Nat) : ℚ) * (2 / 3)⌋).toNat) :=
  ⟨⟨rfl, fun _ => by decide⟩,
   C3_segmentation_fold_structure (fun _ => [2, 0, 1]) (fun _ _ l => l)
     ⟨"segmentation", 3, none, some [0, 0, 0]⟩ 2 0 (2 / 3) rfl
     (fun _ => (by decide : ([2, 0, 1] : List Nat).Perm (List.range 3)))⟩

/-- Claim C4: on every task path, each fold pair has disjoint train and
validation index lists, the cardinality of the union of the two index sets
equals `len(train) + len(validation)`, and that sum is at most
`len(dataset)`. -/
theorem C4_fold_train_val_disjoint {β : Type} [DecidableEq β]
    (np_permutation : Nat → List Nat) (shuffle : Nat → Nat → List Nat → List Nat)
    (dataset : Dataset β) (n_splits seed : Nat) (ts : ℚ)
    (hperm : ∀ f, (np_permutation f).Perm (List.range dataset.size))
    (hshuffle : ∀ s f l, (shuffle s f l).Perm l)
    (hsel : ∀ y, selectedY dataset = some y → y.length = dataset.size) :
    ∀ l, k_fold np_permutation shuffle dataset n_splits seed ts = Except.ok l →
      ∀ pr ∈ l, pr.1.Disjoint pr.2 ∧
        (pr.1.toFinset ∪ pr.2.toFinset).card = pr.1.length + pr.2.length ∧
        pr.1.length + pr.2.length ≤ dataset.size := by
  intro l hl pr hpr
  by_cases ht1 : dataset.task = "classification"
  · rw [k_fold_classification_raises np_permutation shuffle dataset n_splits seed ts ht1] at hl
    cases hl
  · by_cases ht2 : dataset.task = "segmentation"
    · rw [k_fold_segmentation_eq np_permutation shuffle dataset n_splits seed ts ht2] at hl
      obtain rfl := Except.ok.inj hl
      rw [List.mem_map] at hpr
      obtain ⟨f, _, rfl⟩ := hpr
      have hp := hperm f
      have hlen : (np_permutation f).length = dataset.size := by
        rw [hp.length_eq, List.length_range]
      have hnd : (np_permutation f).Nodup := (hp.nodup_iff).mpr (List.nodup_range _)
      have hT := (List.take_sublist ((⌊(dataset.size : ℚ) * ts⌋).toNat) _).nodup hnd
      have hV := (List.drop_sublist ((⌊(dataset.size : ℚ) * ts⌋).toNat) _).nodup hnd
      have hD := List.disjoint_take_drop hnd
        (le_refl ((⌊(dataset.size : ℚ) * ts⌋).toNat))
      refine ⟨hD, disjoint_nodup_card hT hV hD, ?_⟩
      simp only [List.length_take, List.length_drop]
      omega
    · rw [k_fold_other_eq np_permutation shuffle dataset n_splits seed ts ht1 ht2] at hl
      obtain rfl := Except.ok.inj hl
      cases hpr

/-- Witness for C4: a segmentation fold over three indices. -/
theorem C4_fold_train_val_disjoint_witness :
    (∀ f : Nat, ([2, 0, 1] : List Nat).Perm (List.range 3)) ∧
    (([2, 0] : List Nat).Disjoint [1] ∧
      (([2, 0] : List Nat).toFinset ∪ ([1] : List Nat).toFinset).card = 2 + 1 ∧
      2 + 1 ≤ 3) := by
  refine ⟨fun _ => by decide, ?_⟩
  have hk : k_fold (fun _ => [2, 0, 1]) (fun _ _ l => l)
      (⟨"segmentation", 3, none, some [0, 0, 0]⟩ : Dataset Nat) 1 0 (2 / 3)
      = Except.ok [([2, 0], [1])] := by
    rw [k_fold_segmentation_eq (fun _ => [2, 0, 1]) (fun _ _ l => l)
      (⟨"segmentation", 3, none, some [0, 0, 0]⟩ : Dataset Nat) 1 0 (2 / 3) rfl]
    have hfl : (⌊((⟨"segmentation", 3, none, some [0, 0, 0]⟩ : Dataset Nat).size : ℚ)
        * (2 / 3)⌋).toNat = 2 := by
      rw [show ((⟨"segmentation", 3, none, some [0, 0, 0]⟩ : Dataset Nat).size : ℚ) * (2 / 3)
          = ((2 : ℤ) : ℚ) from by show ((3 : ℕ) : ℚ) * (2 / 3) = ((2 : ℤ) : ℚ); push_cast; norm_num]
      rw [Int.floor_intCast]
      rfl
    rw [hfl]
    rfl
  exact C4_fold_train_val_disjoint (fun _ => [2, 0, 1]) (fun _ _ l => l)
    (⟨"segmentation", 3, none, some [0, 0, 0]⟩ : Dataset Nat) 1 0 (2 / 3)
    (fun _ => (by decide : ([2, 0, 1] : List Nat).Perm (List.range 3)))
    (fun _ _ l => List.Perm.refl l)
    (fun y hy => by simp [selectedY] at hy; subst hy; rfl)
    [([2, 0], [1])] hk ([2, 0], [1]) (by simp)

/-- Claim C9 (code bug): the claim states the intended behavior of the
classification path — seed-deterministic stratified folds — but
`StratifiedShuffleSplit` is never imported in `src/utils/dataset_utils.py`,
so `sss = StratifiedShuffleSplit(...)` at line 56 raises `NameError` on
every classification-path call: the program produces no fold pairs at all
there, for any seed, dataset, fold count or train fraction. -/
theorem C9_classification_raises {β : Type} [DecidableEq β]
    (np_permutation : Nat → List Nat) (shuffle : Nat → Nat → List Nat → List Nat)
    (dataset : Dataset β) (n_splits seed : Nat) (ts : ℚ)
    (htask : dataset.task = "classification") :
    k_fold np_permutation shuffle dataset n_splits seed ts
      = Except.error "NameError: name StratifiedShuffleSplit is not defined" :=
  k_fold_classification_raises np_permutation shuffle dataset n_splits seed ts htask

/-- Witness for C9: a concrete classification dataset, on which `k_fold`
raises instead of producing folds. -/
theorem C9_classification_raises_witness :
    (⟨"classification", 5, some [0, 0, 0, 0, 1], none⟩ : Dataset Nat).task
      = "classification" ∧
    k_fold (fun _ => []) (fun _ _ l => l)
        (⟨"classification", 5, some [0, 0, 0, 0, 1], none⟩ : Dataset Nat) 1 0 (3 / 4)
      = Except.error "NameError: name StratifiedShuffleSplit is not defined" :=
  ⟨rfl,
   C9_classification_raises (fun _ => []) (fun _ _ l => l)
     (⟨"classification", 5, some [0, 0, 0, 0, 1], none⟩ : Dataset Nat) 1 0 (3 / 4) rfl⟩

/-- Claim C10 (spec-modelled): on the segmentation path every fold pair is an
exact partition of [0, len(dataset)): train ++ validation is a permutation of
the full index range, the train part has exactly
floor(len(dataset) * train_size) elements, and the two parts together have
exactly len(dataset) elements. -/
theorem C10_segmentation_exact_partition {β : Type} [DecidableEq β]
    (np_permutation : Nat → List Nat) (shuffle : Nat → Nat → List Nat → List Nat)
    (dataset : Dataset β) (n_splits seed : Nat) (ts : ℚ)
    (htask : dataset.task = "segmentation")
    (hperm : ∀ f, (np_permutation f).Perm (List.range dataset.size))
    (h0 : 0 ≤ ts) (h1 : ts ≤ 1) :
    ∃ l, k_fold np_permutation shuffle dataset n_splits seed ts = Except.ok l ∧
      ∀ pr ∈ l, (pr.1 ++ pr.2).Perm (List.range dataset.size) ∧
        pr.1.length = (⌊(dataset.size : ℚ) * ts⌋).toNat ∧
        pr.1.length + pr.2.length = dataset.size := by
  refine ⟨_, k_fold_segmentation_eq np_permutation shuffle dataset n_splits seed ts htask, ?_⟩
  intro pr hpr
  rw [List.mem_map] at hpr
  obtain ⟨f, _, rfl⟩ := hpr
  have hp := hperm f
  have hlen : (np_permutation f).length = dataset.size := by
    rw [hp.length_eq, List.length_range]
  have hs_le : (⌊(dataset.size : ℚ) * ts⌋).toNat ≤ dataset.size := by
    have hle : (dataset.size : ℚ) * ts ≤ ((dataset.size : Nat) : ℚ) := by
      nlinarith [Nat.cast_nonneg (α := ℚ) dataset.size]
    have := Int.floor_le_floor hle
    rw [Int.floor_natCast] at this
    omega
  refine ⟨?_, ?_, ?_⟩
  · rw [List.take_append_drop]
    exact hp
  · simp only [List.length_take]
    omega
  · simp only [List.length_take, List.length_drop]
    omega

/-- Witness for C10: the 3-element segmentation dataset with permutation
[2,0,1] and train fraction 2/3 partitions each fold exactly. -/
theorem C10_segmentation_exact_partition_witness :
    ((⟨"segmentation", 3, none, some [0, 0, 0]⟩ : Dataset Nat).task = "segmentation" ∧
      (∀ f : Nat, ([2, 0, 1] : List Nat).Perm (List.range 3)) ∧
      (0 : ℚ) ≤ 2 / 3 ∧ (2 / 3 : ℚ) ≤ 1) ∧
    ∃ l, k_fold (fun _ => [2, 0, 1]) (fun _ _ l => l)
        (⟨"segmentation", 3, none, some [0, 0, 0]⟩ : Dataset Nat) 1 0 (2 / 3 : ℚ)
      = Except.ok l ∧
      ∀ pr ∈ l, (pr.1 ++ pr.2).Perm (List.range 3) ∧
        pr.1.length = (⌊((3 : Nat) : ℚ) * (2 / 3)⌋).toNat ∧
        pr.1.length + pr.2.length = 3 :=
  ⟨⟨rfl, fun _ => by decide, by norm_num, by norm_num⟩,
   C10_segmentation_exact_partition (fun _ => [2, 0, 1]) (fun _ _ l => l)
     (⟨"segmentation", 3, none, some [0, 0, 0]⟩ : Dataset Nat) 1 0 (2 / 3) rfl
     (fun _ => (by decide : ([2, 0, 1] : List Nat).Perm (List.range 3)))
     (by norm_num) (by norm_num)⟩

end Raw2Logit
